import Mathlib

set_option linter.unusedVariables false

/-!
A shallow embedding of the core of the rminnich/cpu repository: the
cpio-archive-backed 9p server (client/cpio9p.go), the real-filesystem
9p server (client/cpu9p.go), the FUSE-to-9p gateway (session/cfs_linux.go)
and the namespace assembler (Session.Namespace in session/cfs_linux.go,
Server.Namespace in server/server_linux.go).

Go machine integers are modelled by Nat (the values arising in the claims
are tiny; no overflow is reachable), bytes by Nat, errors by an explicit
error type, and a Go panic by a dedicated result constructor.  External
collaborators (the OS mount call, the TCP dial, the p9 wire client, the
random byte source) are passed in as explicit oracle parameters, so that
which collaborator calls a code path attempts is part of the result.
-/

/-! ## Go path helpers (path/filepath), modelled for relative slash paths.

The repository only ever feeds `filepath.Join`, `filepath.Rel` and
`filepath.Split` relative, slash-separated paths (cpio record names and
the bind/mount targets).  `cleanParts` is Go `filepath.Clean` on the
component list of such a path: it drops empty and "." components and
resolves ".." against a preceding non-".." component. -/

def cleanParts (parts : List String) : List String :=
  parts.foldl
    (fun acc p =>
      if p = "" ∨ p = "." then acc
      else if p = ".." then
        match acc.getLast? with
        | some q => if q = ".." then acc ++ [p] else acc.dropLast
        | none => acc ++ [p]
      else acc ++ [p])
    []

/-- Split a character list at every slash (the components of a path). -/
def splitSlash : List Char → List (List Char)
  | [] => [[]]
  | c :: rest =>
    match splitSlash rest with
    | [] => [[]]
    | g :: gs => if c = '/' then [] :: g :: gs else (c :: g) :: gs

/-- The slash-separated components of a path string. -/
def rawParts (s : String) : List String :=
  (splitSlash s.toList).map fun g => ⟨g⟩

/-- Interleave path components with slashes. -/
def joinCharGroups : List (List Char) → List Char
  | [] => []
  | [g] => g
  | g :: gs => g ++ '/' :: joinCharGroups gs

/-- Rebuild a path string from its components. -/
def joinPath (parts : List String) : String :=
  ⟨joinCharGroups (parts.map String.toList)⟩

/-- Clean component list of a path string. -/
def pathParts (s : String) : List String :=
  cleanParts (rawParts s)

/-- Whether a path string is absolute (begins with a slash). -/
def isAbsPath (s : String) : Bool :=
  match s.toList with
  | c :: _ => c = '/'
  | [] => false

/-- Go `filepath.Join(p, n)`: concatenate the components and clean;
a leading slash of p is kept, and an all-empty relative result is ".".
(".." components climbing above an absolute root do not arise here.) -/
def filepathJoin (p n : String) : String :=
  let parts := cleanParts (rawParts p ++ rawParts n)
  if isAbsPath p then ⟨'/' :: (joinPath parts).toList⟩
  else if parts.isEmpty then "." else joinPath parts

/-- Strip the longest common prefix of two component lists. -/
def stripCommon : List String → List String → List String × List String
  | x :: bs, y :: ts =>
    if x = y then stripCommon bs ts else (x :: bs, y :: ts)
  | b, t => (b, t)

/-- Go `filepath.Rel(base, targ)` for relative paths: after cleaning both,
strip the common prefix; the result climbs out of the remaining base
components with ".." and descends into the remaining target components.
`none` models the error Go returns when the remaining base still holds
".." components (the relative path cannot be computed). -/
def filepathRel (base targ : String) : Option String :=
  let b := pathParts base
  let t := pathParts targ
  let bt := stripCommon b t
  if bt.1.any (fun x => decide (x = "..")) then none
  else
    let parts := List.replicate bt.1.length ".." ++ bt.2
    if parts.isEmpty then some "." else some (joinPath parts)

/-- Whether a character list holds a slash. -/
def hasSlash : List Char → Bool
  | [] => false
  | c :: rest => if c = '/' then true else hasSlash rest

/-- Go `dir, _ := filepath.Split(b); len(dir) > 0`: the split-off directory
part is non-empty exactly when the path holds a separator. -/
def splitDirNonempty (s : String) : Bool :=
  hasSlash s.toList

/-! ## Error and result model -/

/-- The error values the embedded code returns: os.ErrNotExist,
os.ErrPermission, syscall.ENOSYS, os.ErrInvalid, and everything else as a
string. -/
inductive GoErr where
  | notExist
  | permission
  | enosys
  | invalid
  | other (s : String)
deriving DecidableEq, Repr

/-- Result of running a piece of Go code: a value, a returned error, or a
run-time panic (out-of-range index, explicit panic(...)). -/
inductive GRes (α : Type) where
  | panic
  | err (e : GoErr)
  | ok (a : α)
deriving DecidableEq, Repr

/-! ## Identity model: p9.QID -/

/-- p9.QID.  The cpio backend leaves Type and Version at their zero value
(the assignment of qid.Type is commented out in cpio9p.go). -/
structure QID where
  ty : Nat := 0
  version : Nat := 0
  path : Nat
deriving DecidableEq, Repr

/-! ## The cpio archive backend (client/cpio9p.go) -/

/-- cpio.Info: the metadata fields of one archive record that the backend
reads (u-root pkg/cpio). -/
structure CpioInfo where
  name : String
  mode : Nat := 0
  uid : Nat := 0
  gid : Nat := 0
  fileSize : Nat := 0
  mtime : Nat := 0
  nlink : Nat := 0
  dev : Nat := 0
deriving DecidableEq, Repr

/-- cpio.Record: metadata plus the content bytes the external decoder
yields for the record. -/
structure CpioRecord where
  info : CpioInfo
  data : List Nat := []
deriving DecidableEq, Repr

/-- The Go map m built in NewCPIO9P by ascending insertion
(`for i, r := range recs: m[r.Info.Name] = uint64(i)`); a later record
with the same name overwrites an earlier one. -/
def buildMap (recs : List CpioRecord) (s : String) : Option Nat :=
  (List.range recs.length).foldl
    (fun acc i =>
      match recs.get? i with
      | some r => if r.info.name = s then some i else acc
      | none => acc)
    none

/-- CPIO9P: the archive, namely the ordered record list plus the flat
name index built once in NewCPIO9P.  (The open file handle and the record
reader are owned by the external decoder and carry no further state.) -/
structure CPIO9P where
  recs : List CpioRecord
  m : String → Option Nat

/-- NewCPIO9P after the external decoding steps: fails on an empty record
list, otherwise builds the name index. -/
def newCPIO9P (recs : List CpioRecord) : Option CPIO9P :=
  if recs.isEmpty then none else some ⟨recs, buildMap recs⟩

/-- CPIO9PFID.rec: the record lookup helper.  The source guard is
`if int(l.path) > len(l.fs.recs) { return nil, os.ErrNotExist }` and the
body then evaluates `l.fs.recs[l.path]`; when path equals the record
count the guard passes and the index expression is out of range, which
in Go is a run-time panic, modelled by `GRes.panic`. -/
def cpioRec (a : CPIO9P) (path : Nat) : GRes CpioRecord :=
  if path > a.recs.length then .err .notExist
  else
    match a.recs.get? path with
    | some r => .ok r
    | none => .panic

/-- CPIO9PFID.info: constructs the QID for a fid; qid.Path is the record
index, Type and Version stay zero. -/
def cpioInfo (a : CPIO9P) (path : Nat) : GRes (QID × CpioInfo) :=
  match cpioRec a path with
  | .panic => .panic
  | .err e => .err e
  | .ok r => .ok ({ path := path }, r.info)

/-- The loop of CPIO9PFID.Walk over a non-empty name list.  Each step
first stats the node reached so far (`c := {path: last.path}; c.info()`),
then joins the next name onto the running virtual path, looks the joined
path up in the flat name index, fails with NotExist on a miss, and
otherwise appends the stat QID and advances to the found index. -/
def cpioWalkLoop (a : CPIO9P) (fullpath : String) (last : Nat)
    (qids : List QID) : List String → GRes (List QID × Nat)
  | [] => .ok (qids, last)
  | name :: rest =>
    match cpioInfo a last with
    | .panic => .panic
    | .err e => .err e
    | .ok (qid, _) =>
      let fp := filepathJoin fullpath name
      match a.m fp with
      | none => .err .notExist
      | some ix => cpioWalkLoop a fp ix (qids ++ [qid]) rest

/-- CPIO9PFID.Walk.  With an empty name list it re-stats the node itself
and returns its single QID; with a non-empty list it runs the per-name
loop starting from the node's own record name. -/
def cpioWalk (a : CPIO9P) (path : Nat) (names : List String) :
    GRes (List QID × Nat) :=
  match cpioRec a path with
  | .panic => .panic
  | .err e => .err e
  | .ok r =>
    if names.isEmpty then
      match cpioInfo a path with
      | .panic => .panic
      | .err e => .err e
      | .ok (qid, _) => .ok ([qid], path)
    else cpioWalkLoop a r.info.name path [] names

/-- CPIO9PFID.Open: re-stats the node, then refuses any mode other than
read-only (p9.ReadOnly = 0) with os.ErrPermission; the iounit returned is
always 0. -/
def cpioOpen (a : CPIO9P) (path : Nat) (mode : Nat) : GRes (QID × Nat) :=
  match cpioInfo a path with
  | .panic => .panic
  | .err e => .err e
  | .ok (qid, _) => if mode ≠ 0 then .err .permission else .ok (qid, 0)

/-- CPIO9PFID.ReadAt: serves bytes of the record's content region at the
given offset (cpio.Record.ReadAt on the decoder side). -/
def cpioReadAt (a : CPIO9P) (path : Nat) (n off : Nat) : GRes (List Nat) :=
  match cpioRec a path with
  | .panic => .panic
  | .err e => .err e
  | .ok r => .ok ((r.data.drop off).take n)

/-- CPIO9PFID.WriteAt: unconditionally `return -1, os.ErrPermission`; the
archive value is passed through untouched. -/
def cpioWriteAt (a : CPIO9P) (path : Nat) (p : List Nat) (off : Nat) :
    CPIO9P × Int × Option GoErr :=
  (a, -1, some .permission)

/-- CPIO9PFID.Create: unconditionally os.ErrPermission. -/
def cpioCreate (a : CPIO9P) (path : Nat) (name : String) (mode perm : Nat) :
    CPIO9P × GRes (QID × Nat) :=
  (a, .err .permission)

/-- CPIO9PFID.Mkdir: unconditionally os.ErrPermission. -/
def cpioMkdir (a : CPIO9P) (path : Nat) (name : String) (perm : Nat) :
    CPIO9P × GRes QID :=
  (a, .err .permission)

/-- CPIO9PFID.Symlink: unconditionally os.ErrPermission. -/
def cpioSymlink (a : CPIO9P) (path : Nat) (oldname newname : String) :
    CPIO9P × GRes QID :=
  (a, .err .permission)

/-- CPIO9PFID.Link: unconditionally os.ErrPermission. -/
def cpioLink (a : CPIO9P) (path : Nat) (target : Nat) (newname : String) :
    CPIO9P × Option GoErr :=
  (a, some .permission)

/-- CPIO9PFID.Mknod: unconditionally syscall.ENOSYS. -/
def cpioMknod (a : CPIO9P) (path : Nat) (name : String) (mode major minor : Nat) :
    CPIO9P × GRes QID :=
  (a, .err .enosys)

/-- CPIO9PFID.Rename: unconditionally syscall.ENOSYS. -/
def cpioRename (a : CPIO9P) (path : Nat) (directory : Nat) (name : String) :
    CPIO9P × Option GoErr :=
  (a, some .enosys)

/-- CPIO9PFID.RenameAt: unconditionally syscall.ENOSYS. -/
def cpioRenameAt (a : CPIO9P) (path : Nat) (oldName : String) (newDir : Nat)
    (newName : String) : CPIO9P × Option GoErr :=
  (a, some .enosys)

/-- CPIO9PFID.UnlinkAt: unconditionally os.ErrPermission. -/
def cpioUnlinkAt (a : CPIO9P) (path : Nat) (name : String) (flags : Nat) :
    CPIO9P × Option GoErr :=
  (a, some .permission)

/-- CPIO9PFID.SetAttr: unconditionally os.ErrPermission. -/
def cpioSetAttr (a : CPIO9P) (path : Nat) : CPIO9P × Option GoErr :=
  (a, some .permission)

/-- p9.Dirent as the backends fill it: QID, type bits, name and the
9p-defined opaque offset. -/
structure Dirent where
  qid : QID
  ty : Nat
  name : String
  offset : Nat
deriving DecidableEq, Repr

/-- The scan of CPIO9PFID.readdir over the records after the node
(`for i, r := range l.fs.recs[l.path+1:]`), carrying the absolute index
of the record at the head of the remaining list.  A `filepath.Rel`
failure stops the scan (`break`); a relative name with a non-empty
directory part is skipped (`continue`); otherwise the absolute index is
collected. -/
def readdirScan (dn : String) : List CpioRecord → Nat → List Nat
  | [], _ => []
  | r :: rest, i =>
    match filepathRel dn r.info.name with
    | none => []
    | some b =>
      if splitDirNonempty b then readdirScan dn rest (i + 1)
      else i :: readdirScan dn rest (i + 1)

/-- CPIO9PFID.readdir: the derived child-index list for a node. -/
def cpioReaddirList (a : CPIO9P) (path : Nat) : GRes (List Nat) :=
  match cpioRec a path with
  | .panic => .panic
  | .err e => .err e
  | .ok r => .ok (readdirScan r.info.name (a.recs.drop (path + 1)) (path + 1))

/-- CPIO9PFID.Readdir.  Stats the node, derives the child-index list, and
emits a synthesized "." entry (QID of the node itself, Offset = record
index) followed by one entry per collected index whose stat and record
lookup succeed (`continue` skips failures; the collected indexes are
always in range, so no failure or panic is reachable there).  The
`offset` and `count` arguments of the source function are never read. -/
def cpioReaddir (a : CPIO9P) (path : Nat) (offset count : Nat) :
    GRes (List Dirent) :=
  match cpioInfo a path with
  | .panic => .panic
  | .err e => .err e
  | .ok (qid, _) =>
    match cpioReaddirList a path with
    | .panic => .panic
    | .err e => .err e
    | .ok list =>
      let dot : Dirent := ⟨qid, qid.ty, ".", path⟩
      let rest := list.filterMap fun i =>
        match cpioInfo a i, cpioRec a i with
        | .ok (q, _), .ok r => some (⟨q, q.ty, r.info.name, i⟩ : Dirent)
        | _, _ => none
      .ok (dot :: rest)

/-! ## Fixture archive

The spec's fixture: an archive holding the root record "." and the paths
"b", "b/c", "b/c/d" and "b/c/hi", the last with content bytes of the
string of h, i and newline. -/

/-- One directory-like record with the given name. -/
def dirRec (n : String) : CpioRecord := { info := { name := n } }

/-- The record list of the fixture archive. -/
def recsA5 : List CpioRecord :=
  [dirRec ".", dirRec "b", dirRec "b/c", dirRec "b/c/d",
   { info := { name := "b/c/hi", fileSize := 3 }, data := [104, 105, 10] }]

/-- The fixture archive with its name index as NewCPIO9P builds it. -/
def A5 : CPIO9P := ⟨recsA5, buildMap recsA5⟩

/-! ## The real-filesystem backend file state (client/cpu9p.go WriteAt)

The os.File a CPU9P node holds after Open/Create, reduced to what
CPU9P.WriteAt observes: the content bytes, whether the file was opened
with O_APPEND, and an optional injected I/O error standing for any other
failure the operating environment reports on a positional write. -/

structure GoFile where
  contents : List Nat
  appendMode : Bool
  ioErr : Option String := none
deriving DecidableEq, Repr

/-- The text of the Go runtime error an os.File returns for WriteAt on a
file opened with O_APPEND. -/
def appendModeErrMsg : String :=
  "os: invalid use of WriteAt on file opened with O_APPEND"

/-- Bytes after a positional write of p at off, zero-filling a gap past
the end of file as the OS does. -/
def writeAtBytes (c : List Nat) (off : Nat) (p : List Nat) : List Nat :=
  let padded := c ++ List.replicate (off - c.length) 0
  padded.take off ++ p ++ padded.drop (off + p.length)

/-- os.File.WriteAt: in append mode the Go runtime rejects the call with
`appendModeErrMsg` and n = 0 before any system call; otherwise an
injected I/O error is reported, or the bytes land at the offset. -/
def osFileWriteAt (f : GoFile) (p : List Nat) (off : Nat) :
    GoFile × Int × Option String :=
  if f.appendMode then (f, 0, some appendModeErrMsg)
  else
    match f.ioErr with
    | some e => (f, 0, some e)
    | none => ({ f with contents := writeAtBytes f.contents off p },
               (p.length : Int), none)

/-- os.File.Write: a sequential write; on an append-mode file the bytes
land at the end of file. -/
def osFileWrite (f : GoFile) (p : List Nat) : GoFile × Int × Option String :=
  ({ f with contents := f.contents ++ p }, (p.length : Int), none)

/-- Character-list prefix test (strings.Contains helper). -/
def isPre : List Char → List Char → Bool
  | [], _ => true
  | _ :: _, [] => false
  | a :: as, b :: bs => a = b && isPre as bs

/-- Character-list substring test (strings.Contains helper). -/
def hasSub (needle : List Char) : List Char → Bool
  | [] => isPre needle []
  | c :: cs => isPre needle (c :: cs) || hasSub needle cs

/-- Go strings.Contains(hay, needle). -/
def strContainsSub (hay needle : String) : Bool :=
  hasSub needle.toList hay.toList

/-- CPU9P.WriteAt: try the positional write; if it fails and the error
text holds the recognizable append-mode message, retry the same bytes as
a sequential write; any other error (and the byte count of the failed
attempt) is returned unchanged. -/
def cpu9pWriteAt (f : GoFile) (p : List Nat) (off : Nat) :
    GoFile × Int × Option String :=
  let r := osFileWriteAt f p off
  match r.2.2 with
  | some e =>
    if strContainsSub e appendModeErrMsg then osFileWrite r.1 p
    else (r.1, r.2.1, some e)
  | none => (r.1, r.2.1, none)

/-! ## The FUSE gateway (session/cfs_linux.go)

P9FS bridges FUSE operations to a p9 client.  The p9 client fid a cache
entry holds is abstracted to a numeric fid identifier; the remote calls
made through it (WalkGetAttr, Open) are oracle parameters. -/

/-- The subset of p9.Attr that LookUpInode copies into the FUSE reply. -/
structure P9Attr where
  size : Nat := 0
  nlink : Nat := 0
  mode : Nat := 0
  uid : Nat := 0
  gid : Nat := 0
  atimeSec : Nat := 0
  atimeNSec : Nat := 0
  mtimeSec : Nat := 0
  mtimeNSec : Nat := 0
  ctimeSec : Nat := 0
  ctimeNSec : Nat := 0
deriving DecidableEq, Repr

/-- The inode cache entry of the gateway (type entry in cfs_linux.go). -/
structure GwEntry where
  fid : Nat
  root : Bool
  qid : QID
  inumber : Nat
deriving DecidableEq, Repr

/-- The open-handle cache entry of the gateway (type openfile). -/
structure OpenFile where
  fid : Nat
  unit : Nat
deriving DecidableEq, Repr

/-- Association-list lookup standing for a Go map read. -/
def assocFind {β : Type} (l : List (Nat × β)) (k : Nat) : Option β :=
  match l.find? (fun p => p.1 = k) with
  | some p => some p.2
  | none => none

/-- Association-list insert standing for a Go map write: the new binding
replaces any existing binding of the same key. -/
def assocInsert {β : Type} (l : List (Nat × β)) (k : Nat) (v : β) :
    List (Nat × β) :=
  (k, v) :: l.filter (fun p => ¬p.1 = k)

/-- The mutable state of P9FS guarded by its one lock. -/
structure GwState where
  lookupTTL : Nat
  getattrTTL : Nat
  keepPageCache : Bool := false
  mtime : Nat := 0
  inMap : List (Nat × GwEntry) := []
  openfile : List (Nat × OpenFile) := []

/-- The fields of fuseops.LookUpInodeOp.Entry that LookUpInode fills. -/
structure LookupOut where
  child : Nat
  attrs : P9Attr
  entryExpiration : Nat
deriving DecidableEq, Repr

/-- P9FS.LookUpInode.  A parent inode with no cache entry hits
`panic("NO parent")`; the `return os.ErrNotExist` right after it is
unreachable.  Otherwise one combined WalkGetAttr for the single name is
issued through the cached fid; on success entry qids[0] is read (a panic
if the oracle yields no QIDs), a cache entry keyed by the QID path
replaces any prior entry for that number, and the reply carries the
child id, the protocol-reported attributes, and expiry now+lookupTTL. -/
def lookUpInode
    (walkGetAttr : Nat → String → GRes (List QID × Nat × P9Attr))
    (now : Nat) (st : GwState) (parent : Nat) (name : String) :
    GRes (GwState × LookupOut) :=
  match assocFind st.inMap parent with
  | none => .panic
  | some cl =>
    match walkGetAttr cl.fid name with
    | .panic => .panic
    | .err e => .err e
    | .ok (qids, f, a) =>
      match qids with
      | [] => .panic
      | q :: _ =>
        let st1 := { st with
          inMap := assocInsert st.inMap q.path ⟨f, false, q, q.path⟩ }
        .ok (st1, ⟨q.path, a, now + st.lookupTTL⟩)

/-- P9FS.OpenDir.  An inode with no cache entry hits `panic("NO file")`.
Otherwise the cached fid is opened read-only against the backend and a
handle-cache entry keyed by the QID path the open reports is recorded. -/
def openDir (open9 : Nat → GRes (QID × Nat)) (st : GwState) (inode : Nat) :
    GRes (GwState × Nat) :=
  match assocFind st.inMap inode with
  | none => .panic
  | some cl =>
    match open9 cl.fid with
    | .panic => .panic
    | .err e => .err e
    | .ok (q, unit) =>
      let handle := q.path
      .ok ({ st with openfile := assocInsert st.openfile handle ⟨cl.fid, unit⟩ },
           handle)

/-- P9FS.ReadFile:
`op.BytesRead, err = io.ReadFull(rand.Reader, op.Dst); return err`.
The destination buffer is filled from the random byte source; rand.Reader
always fills the whole buffer, so BytesRead is the buffer length and the
error is nil.  The gateway state, the handle and the offset of the
request are never read. -/
def gwReadFile (randByte : Nat → Nat) (st : GwState)
    (handle offset dstLen : Nat) : GRes (List Nat × Nat) :=
  .ok ((List.range dstLen).map randByte, dstLen)

/-! ## The namespace assembler (Session.Namespace, session/cfs_linux.go) -/

/-- Bind (server/server.go): one bind-mount overlay declaration.  (Named
CpuBind here because Bind is taken by the Lean library.) -/
structure CpuBind where
  Local : String
  Remote : String
deriving DecidableEq, Repr

/-- The environment values Session.Namespace reads. -/
structure NsEnv where
  cpunonce : Option String
  user : String := ""
  cpudFuse : Bool := false
deriving DecidableEq, Repr

/-- The externally visible steps Session.Namespace can attempt, in order
of appearance in the source. -/
inductive NsAction where
  | dial
  | writeNonce
  | getFd
  | p9NewClient
  | p9Attach
  | fuseMount
  | mount9p
  | bindMount (b : CpuBind)
deriving DecidableEq, Repr

/-- Outcomes of the external collaborators Session.Namespace calls:
net.Dial, the nonce write, TCPConn.File, p9.NewClient, Attach,
fuse.Mount, the kernel 9p mount, and the per-bind bind mount. -/
structure NsOracle where
  dialErr : Option String := none
  writeErr : Option String := none
  fdErr : Option String := none
  clientErr : Option String := none
  attachErr : Option String := none
  fuseMountErr : Option String := none
  mount9pErr : Option String := none
  bindErr : CpuBind → Option String := fun _ => none

/-- The per-session state Session.Namespace reads and writes. -/
structure SessionSt where
  binds : List CpuBind
  fail : Bool := false
  tmpMnt : String := "/tmp"
  fuseFlag : Bool := false

/-- What Session.Namespace produces: the aggregated warning (empty list
standing for a nil error), the hard error, the final soft-failure flag,
and the externally visible actions attempted. -/
structure NsResult where
  warning : List String
  err : Option String
  fail : Bool
  actions : List NsAction
deriving DecidableEq, Repr

/-- The warning text of one failed bind mount. -/
def bindFailMsg (t : String) (b : CpuBind) (e : String) : String :=
  "CPUD:Warning: mounting " ++ t ++ " on " ++ b.Local ++ " failed: " ++ e

/-- The overlay loop of Session.Namespace: every bind is attempted; a
failure sets the session soft-failure flag and runs
`warning = multierror.Append(fmt.Errorf(...))` - note the accumulated
warning is not passed to Append, so the fresh multierror holds only the
current failure and replaces whatever was accumulated before. -/
def bindPhase (berr : CpuBind → Option String) (mountTarget : String) :
    List CpuBind → Bool → List String → List NsAction →
    Bool × List String × List NsAction
  | [], fail, warning, acts => (fail, warning, acts)
  | n :: rest, fail, warning, acts =>
    let t := filepathJoin mountTarget n.Remote
    match berr n with
    | some e =>
      bindPhase berr mountTarget rest true [bindFailMsg t n e]
        (acts ++ [.bindMount n])
    | none => bindPhase berr mountTarget rest fail warning (acts ++ [.bindMount n])

/-- Session.Namespace.  Steps, as in the source: (1) if CPUNONCE is
absent, return (nil, nil) at once; (2) dial the local 9p port and write
the nonce - failures are hard errors; (3) obtain the connection file
descriptor; (4) in FUSE mode build the p9 client, attach, and fuse-mount
the gateway, otherwise issue the kernel-native 9p mount - failures are
hard errors; (5) run the overlay bind loop; (6) return the (last) bind
warning and a nil hard error. -/
def sessionNamespace (env : NsEnv) (orc : NsOracle) (s : SessionSt) :
    NsResult :=
  match env.cpunonce with
  | none => ⟨[], none, s.fail, []⟩
  | some _ =>
    let acts0 := [NsAction.dial]
    match orc.dialErr with
    | some e => ⟨[], some ("CPUD:Dial 9p port: " ++ e), s.fail, acts0⟩
    | none =>
      let acts1 := acts0 ++ [NsAction.writeNonce]
      match orc.writeErr with
      | some e => ⟨[], some ("CPUD:Write nonce: " ++ e), s.fail, acts1⟩
      | none =>
        let acts2 := acts1 ++ [NsAction.getFd]
        match orc.fdErr with
        | some e => ⟨[], some ("CPUD:Cannot get fd: " ++ e), s.fail, acts2⟩
        | none =>
          let mountTarget := filepathJoin s.tmpMnt "cpu"
          if s.fuseFlag || env.cpudFuse then
            let acts3 := acts2 ++ [NsAction.p9NewClient]
            match orc.clientErr with
            | some e => ⟨[], some e, s.fail, acts3⟩
            | none =>
              let acts4 := acts3 ++ [NsAction.p9Attach]
              match orc.attachErr with
              | some e => ⟨[], some e, s.fail, acts4⟩
              | none =>
                let acts5 := acts4 ++ [NsAction.fuseMount]
                match orc.fuseMountErr with
                | some e => ⟨[], some e, s.fail, acts5⟩
                | none =>
                  let r := bindPhase orc.bindErr mountTarget s.binds s.fail [] acts5
                  ⟨r.2.1, none, r.1, r.2.2⟩
          else
            let acts3 := acts2 ++ [NsAction.mount9p]
            match orc.mount9pErr with
            | some e => ⟨[], some ("9p mount " ++ e), s.fail, acts3⟩
            | none =>
              let r := bindPhase orc.bindErr mountTarget s.binds s.fail [] acts3
              ⟨r.2.1, none, r.1, r.2.2⟩

/-! ## Helper lemmas -/

/-- In-range record lookup succeeds. -/
theorem cpioRec_ok_of_lt (a : CPIO9P) (lp : Nat) (h : lp < a.recs.length) :
    cpioRec a lp = .ok (a.recs.get ⟨lp, h⟩) := by
  unfold cpioRec
  rw [if_neg (by omega), List.get?_eq_get h]

/-- In-range stat succeeds with the record index as QID path. -/
theorem cpioInfo_ok_of_lt (a : CPIO9P) (lp : Nat) (h : lp < a.recs.length) :
    cpioInfo a lp = .ok ({ path := lp }, (a.recs.get ⟨lp, h⟩).info) := by
  unfold cpioInfo
  rw [cpioRec_ok_of_lt a lp h]

/-- A successful walk loop returns one QID per name on top of the
accumulator. -/
theorem cpioWalkLoop_ok_length :
    ∀ (names : List String) (a : CPIO9P) (fp : String) (last : Nat)
      (qids : List QID) (res : List QID × Nat),
      cpioWalkLoop a fp last qids names = .ok res →
      res.1.length = qids.length + names.length := by
  intro names
  induction names with
  | nil =>
    intro a fp last qids res h
    simp only [cpioWalkLoop] at h
    cases h
    simp
  | cons name rest ih =>
    intro a fp last qids res h
    simp only [cpioWalkLoop] at h
    cases hinfo : cpioInfo a last with
    | panic => rw [hinfo] at h; cases h
    | err e => rw [hinfo] at h; cases h
    | ok qi =>
      rw [hinfo] at h
      cases hm : a.m (filepathJoin fp name) with
      | none => rw [hm] at h; cases h
      | some ix =>
        rw [hm] at h
        have := ih a (filepathJoin fp name) ix (qids ++ [qi.1]) res h
        simp at this
        simp [this]
        omega

/-- The warning message of the LAST failing bind of a list, if any bind
fails: this is what the overlay loop leaves behind, because each failure
replaces the previous warning value. -/
def lastBindWarning (berr : CpuBind → Option String) (t : String) :
    List CpuBind → Option String
  | [] => none
  | b :: rest =>
    match lastBindWarning berr t rest with
    | some m => some m
    | none => (berr b).map fun e => bindFailMsg (filepathJoin t b.Remote) b e

/-- The overlay loop attempts every configured bind, in order, no matter
how earlier binds fared. -/
theorem bindPhase_actions :
    ∀ (binds : List CpuBind) (berr : CpuBind → Option String) (t : String)
      (f : Bool) (w : List String) (acts : List NsAction),
      (bindPhase berr t binds f w acts).2.2 =
        acts ++ binds.map NsAction.bindMount := by
  intro binds
  induction binds with
  | nil => intro berr t f w acts; simp [bindPhase]
  | cons b rest ih =>
    intro berr t f w acts
    cases hb : berr b with
    | some e => simp [bindPhase, hb, ih]
    | none => simp [bindPhase, hb, ih]

/-- The soft-failure flag after the overlay loop: set exactly when it was
already set or some bind failed. -/
theorem bindPhase_fail :
    ∀ (binds : List CpuBind) (berr : CpuBind → Option String) (t : String)
      (f : Bool) (w : List String) (acts : List NsAction),
      (bindPhase berr t binds f w acts).1 =
        (f || binds.any fun b => (berr b).isSome) := by
  intro binds
  induction binds with
  | nil => intro berr t f w acts; simp [bindPhase]
  | cons b rest ih =>
    intro berr t f w acts
    cases hb : berr b with
    | some e => simp [bindPhase, hb, ih]
    | none => simp [bindPhase, hb, ih]

/-- The warning after the overlay loop holds only the message of the last
failing bind (or is the incoming warning when no bind fails). -/
theorem bindPhase_warning :
    ∀ (binds : List CpuBind) (berr : CpuBind → Option String) (t : String)
      (f : Bool) (w : List String) (acts : List NsAction),
      (bindPhase berr t binds f w acts).2.1 =
        match lastBindWarning berr t binds with
        | none => w
        | some m => [m] := by
  intro binds
  induction binds with
  | nil => intro berr t f w acts; simp [bindPhase, lastBindWarning]
  | cons b rest ih =>
    intro berr t f w acts
    cases hb : berr b with
    | some e =>
      rw [show bindPhase berr t (b :: rest) f w acts =
        bindPhase berr t rest true [bindFailMsg (filepathJoin t b.Remote) b e]
          (acts ++ [.bindMount b]) by simp [bindPhase, hb]]
      rw [ih]
      cases hrest : lastBindWarning berr t rest <;>
        simp [lastBindWarning, hrest, hb]
    | none =>
      rw [show bindPhase berr t (b :: rest) f w acts =
        bindPhase berr t rest f w (acts ++ [.bindMount b]) by
          simp [bindPhase, hb]]
      rw [ih]
      cases hrest : lastBindWarning berr t rest <;>
        simp [lastBindWarning, hrest, hb]

/-! ## Claim theorems -/

/-- C1.  On a LookUpInode request whose parent inode number has no entry
in the inode cache map, the gateway does NOT return a recoverable
NotExist error: the source executes panic("NO parent") (its
`return os.ErrNotExist` is unreachable dead code), terminating the
serving process.  Shown on the empty cache, for every backend oracle,
clock value, TTL configuration, parent number and name. -/
theorem gw_lookupinode_missing_parent_panics :
    (∀ (wga : Nat → String → GRes (List QID × Nat × P9Attr)) (now : Nat)
       (ttl gttl : Nat) (parent : Nat) (name : String),
       lookUpInode wga now ⟨ttl, gttl, false, 0, [], []⟩ parent name = .panic) ∧
    (GRes.panic : GRes (GwState × LookupOut)) ≠ .err .notExist := by
  constructor
  · intro wga now ttl gttl parent name
    rfl
  · intro h
    exact GRes.noConfusion h

/-- C2.  The gateway ReadFile never touches the backend: the destination
buffer is filled from the process-wide random byte source
(io.ReadFull(rand.Reader, op.Dst)), independent of the gateway state,
the handle recorded at open time, and the requested offset.  On a state
whose handle 7 was recorded for archive node 4 ("b/c/hi", bytes "hi\n"),
a 4-byte read returns the random bytes, not the backend bytes that
ReadAt on the recorded node yields. -/
theorem gw_readfile_ignores_backend :
    (∀ (randByte : Nat → Nat) (st st2 : GwState) (h h2 o o2 len : Nat),
       gwReadFile randByte st h o len = gwReadFile randByte st2 h2 o2 len) ∧
    gwReadFile (fun _ => 9) ⟨5, 5, false, 0, [], [(7, ⟨4, 0⟩)]⟩ 7 0 4 =
      .ok ([9, 9, 9, 9], 4) ∧
    cpioReadAt A5 4 4 0 = .ok [104, 105, 10] ∧
    ([9, 9, 9, 9] : List Nat) ≠ [104, 105, 10] := by
  refine ⟨fun _ _ _ _ _ _ _ _ => rfl, by decide, by decide, by decide⟩

/-- C3.  Namespace assembly with no one-time secret (CPUNONCE) in the
environment returns (nil warning, nil hard error) without attempting any
external action.  But with the secret present and an EMPTY overlay list
the source still dials, writes the nonce, takes the descriptor and
performs the kernel 9p mount: the advertised no-op check for "no overlay
directories requested" (the function's own doc comment says "iff
CPU_NONCE is set and len(s.binds) > 0") is not implemented. -/
theorem ns_noop_checks_nonce_only :
    (∀ (u : String) (fu : Bool) (orc : NsOracle) (s : SessionSt),
       sessionNamespace ⟨none, u, fu⟩ orc s = ⟨[], none, s.fail, []⟩) ∧
    (sessionNamespace ⟨some "n", "u", false⟩
        ⟨none, none, none, none, none, none, none, fun _ => none⟩
        ⟨[], false, "/tmp", false⟩).actions =
      [.dial, .writeNonce, .getFd, .mount9p] := by
  exact ⟨fun u fu orc s => rfl, by decide⟩

/-- C4 counterexample.  Two configured binds both fail to mount; the
returned warning holds only the second bind's failure message - the
first failed bind is not covered, because the loop runs
`warning = multierror.Append(fmt.Errorf(...))` without passing the
accumulated warning, so each failure REPLACES the aggregate instead of
being appended to it. -/
theorem ns_warning_covers_only_last_failure :
    (sessionNamespace ⟨some "n", "u", false⟩
        ⟨none, none, none, none, none, none, none, fun _ => some "boom"⟩
        ⟨[⟨"/l1", "r1"⟩, ⟨"/l2", "r2"⟩], false, "/tmp", false⟩).warning =
      [bindFailMsg "/tmp/cpu/r2" ⟨"/l2", "r2"⟩ "boom"] ∧
    bindFailMsg "/tmp/cpu/r1" ⟨"/l1", "r1"⟩ "boom" ∉
      (sessionNamespace ⟨some "n", "u", false⟩
        ⟨none, none, none, none, none, none, none, fun _ => some "boom"⟩
        ⟨[⟨"/l1", "r1"⟩, ⟨"/l2", "r2"⟩], false, "/tmp", false⟩).warning := by
  decide

/-- C4 (amended).  During overlay application every configured bind is
attempted regardless of earlier failures (one bindMount action per
configured bind, in order); a failing bind sets the session-wide
soft-failure flag; the hard error returned for the session is nil; and
the warning returned is the failure message of the LAST failing bind
(nil when every bind mounts), each failure having replaced the previous
warning value. -/
theorem ns_overlay_partial_failure :
    (∀ (binds : List CpuBind) (berr : CpuBind → Option String) (t : String)
       (f : Bool) (w : List String) (acts : List NsAction),
       (bindPhase berr t binds f w acts).2.2 =
         acts ++ binds.map NsAction.bindMount) ∧
    (∀ (berr : CpuBind → Option String) (binds : List CpuBind) (f : Bool)
       (nonce u tmp : String),
       sessionNamespace ⟨some nonce, u, false⟩
           ⟨none, none, none, none, none, none, none, berr⟩
           ⟨binds, f, tmp, false⟩ =
         ⟨(match lastBindWarning berr (filepathJoin tmp "cpu") binds with
           | none => []
           | some m => [m]),
          none,
          (f || binds.any fun b => (berr b).isSome),
          [NsAction.dial, .writeNonce, .getFd, .mount9p] ++
            binds.map NsAction.bindMount⟩) := by
  constructor
  · exact fun binds berr t f w acts => bindPhase_actions binds berr t f w acts
  · intro berr binds f nonce u tmp
    show (⟨(bindPhase berr (filepathJoin tmp "cpu") binds f []
              [.dial, .writeNonce, .getFd, .mount9p]).2.1,
           none,
           (bindPhase berr (filepathJoin tmp "cpu") binds f []
              [.dial, .writeNonce, .getFd, .mount9p]).1,
           (bindPhase berr (filepathJoin tmp "cpu") binds f []
              [.dial, .writeNonce, .getFd, .mount9p]).2.2⟩ : NsResult) = _
    rw [bindPhase_actions, bindPhase_fail, bindPhase_warning]

/-- C5.  The archive backend is immutable: Open succeeds only for
read-only mode (p9.ReadOnly = 0) and fails with PermissionDenied for any
other mode on any node backed by a record; WriteAt, Create, Mkdir,
Symlink, Link, Mknod, Rename, RenameAt, UnlinkAt and SetAttr fail
unconditionally with PermissionDenied or NotSupported (ENOSYS), for
every node and every argument list, and pass the archive - records and
index - through unchanged. -/
theorem cpio_backend_immutable :
    (∀ (a : CPIO9P) (lp mode : Nat), lp < a.recs.length → mode ≠ 0 →
       cpioOpen a lp mode = .err .permission) ∧
    (∀ (a : CPIO9P) (lp mode : Nat) (q : QID) (u : Nat),
       cpioOpen a lp mode = .ok (q, u) → mode = 0) ∧
    (∀ (a : CPIO9P) (lp : Nat) (p : List Nat) (off : Nat),
       cpioWriteAt a lp p off = (a, -1, some .permission)) ∧
    (∀ (a : CPIO9P) (lp : Nat) (name : String) (mode perm : Nat),
       cpioCreate a lp name mode perm = (a, .err .permission)) ∧
    (∀ (a : CPIO9P) (lp : Nat) (name : String) (perm : Nat),
       cpioMkdir a lp name perm = (a, .err .permission)) ∧
    (∀ (a : CPIO9P) (lp : Nat) (o n : String),
       cpioSymlink a lp o n = (a, .err .permission)) ∧
    (∀ (a : CPIO9P) (lp t : Nat) (n : String),
       cpioLink a lp t n = (a, some .permission)) ∧
    (∀ (a : CPIO9P) (lp : Nat) (n : String) (mo ma mi : Nat),
       cpioMknod a lp n mo ma mi = (a, .err .enosys)) ∧
    (∀ (a : CPIO9P) (lp d : Nat) (n : String),
       cpioRename a lp d n = (a, some .enosys)) ∧
    (∀ (a : CPIO9P) (lp : Nat) (o : String) (d : Nat) (n : String),
       cpioRenameAt a lp o d n = (a, some .enosys)) ∧
    (∀ (a : CPIO9P) (lp : Nat) (n : String) (fl : Nat),
       cpioUnlinkAt a lp n fl = (a, some .permission)) ∧
    (∀ (a : CPIO9P) (lp : Nat), cpioSetAttr a lp = (a, some .permission)) := by
  refine ⟨?_, ?_, fun _ _ _ _ => rfl, fun _ _ _ _ _ => rfl, fun _ _ _ _ => rfl,
    fun _ _ _ _ => rfl, fun _ _ _ _ => rfl, fun _ _ _ _ _ _ => rfl,
    fun _ _ _ _ => rfl, fun _ _ _ _ _ => rfl, fun _ _ _ _ => rfl,
    fun _ _ => rfl⟩
  · intro a lp mode hlt hmode
    rw [cpioOpen, cpioInfo_ok_of_lt a lp hlt]
    simp [hmode]
  · intro a lp mode q u h
    by_contra hmode
    rw [cpioOpen] at h
    cases hinfo : cpioInfo a lp with
    | panic => rw [hinfo] at h; cases h
    | err e => rw [hinfo] at h; cases h
    | ok qi =>
      obtain ⟨qq, fi2⟩ := qi
      rw [hinfo] at h
      simp [hmode] at h

/-- C5 witness.  On the fixture archive: opening the root read-write
fails with PermissionDenied; opening it read-only succeeds (so mode 0 is
the only mode Open accepts); WriteAt on node 4 leaves the archive
untouched and reports (-1, PermissionDenied). -/
theorem cpio_backend_immutable_witness :
    cpioOpen A5 0 1 = .err .permission ∧
    (0 : Nat) = 0 ∧
    cpioWriteAt A5 4 [1, 2] 0 = (A5, -1, some .permission) := by
  refine ⟨cpio_backend_immutable.1 A5 0 1 (by decide) (by decide),
    cpio_backend_immutable.2.1 A5 0 0 ⟨0, 0, 0⟩ 0 (by decide),
    cpio_backend_immutable.2.2.1 A5 4 [1, 2] 0⟩

/-- C6.  On the archive backend a Walk with an empty name list reports
the node's own QID (path = its record index), but re-resolving the same
object from its parent with a one-component Walk of its name returns the
QID the loop statted BEFORE advancing - the parent's QID.  On the
fixture, Walk([]) on node "b" (record 1) yields QID path 1 while
Walk(["b"]) from the root yields QID path 0: the two resolutions of the
same object disagree, breaking idempotent self-identification. -/
theorem cpio_walk_stale_qids :
    cpioWalk A5 1 [] = .ok ([⟨0, 0, 1⟩], 1) ∧
    cpioWalk A5 0 ["b"] = .ok ([⟨0, 0, 0⟩], 1) ∧
    (⟨0, 0, 1⟩ : QID).path ≠ (⟨0, 0, 0⟩ : QID).path := by
  decide

/-- C7.  Archive Walk resolves one component at a time against the flat
name index: from the fixture root, Walk(["b","c"]) succeeds with exactly
2 QIDs and final node record 2 (a real record); Walk(["barf"]) fails
with NotExist.  In general a successful Walk of a non-empty name list
returns exactly one QID per component, and a step whose composed path
misses the index fails the whole call with NotExist, aborting the
remaining components. -/
theorem cpio_walk_per_component :
    cpioWalk A5 0 ["b", "c"] = .ok ([⟨0, 0, 0⟩, ⟨0, 0, 1⟩], 2) ∧
    (A5.recs.get? 2).isSome = true ∧
    cpioWalk A5 0 ["barf"] = .err .notExist ∧
    (∀ (a : CPIO9P) (lp : Nat) (names : List String) (qids : List QID)
       (last : Nat), names ≠ [] → cpioWalk a lp names = .ok (qids, last) →
       qids.length = names.length) ∧
    (∀ (a : CPIO9P) (fp : String) (last : Nat) (qids : List QID)
       (name : String) (rest : List String) (q : QID) (fi : CpioInfo),
       cpioInfo a last = .ok (q, fi) →
       a.m (filepathJoin fp name) = none →
       cpioWalkLoop a fp last qids (name :: rest) = .err .notExist) := by
  refine ⟨by decide, by decide, by decide, ?_, ?_⟩
  · intro a lp names qids last hne h
    rw [cpioWalk] at h
    cases hrec : cpioRec a lp with
    | panic => rw [hrec] at h; cases h
    | err e => rw [hrec] at h; cases h
    | ok r =>
      rw [hrec] at h
      cases names with
      | nil => exact absurd rfl hne
      | cons n ns =>
        have h2 : cpioWalkLoop a r.info.name lp [] (n :: ns) =
            .ok (qids, last) := h
        have := cpioWalkLoop_ok_length (n :: ns) a r.info.name lp []
          (qids, last) h2
        simpa using this
  · intro a fp last qids name rest q fi hinfo hmiss
    simp only [cpioWalkLoop, hinfo, hmiss]

/-- C7 witness.  The general per-component count applied to the concrete
two-component walk of the fixture, and the general abort-on-miss rule
applied to the concrete "barf" step from the fixture root. -/
theorem cpio_walk_per_component_witness :
    ([(⟨0, 0, 0⟩ : QID), ⟨0, 0, 1⟩].length = ["b", "c"].length) ∧
    cpioWalkLoop A5 "." 0 [] ["barf"] = .err .notExist := by
  refine ⟨cpio_walk_per_component.2.2.2.1 A5 0 ["b", "c"]
      [⟨0, 0, 0⟩, ⟨0, 0, 1⟩] 2 (by decide) (by decide),
    cpio_walk_per_component.2.2.2.2 A5 "." 0 [] "barf" []
      ⟨0, 0, 0⟩ { name := "." } (by decide) (by decide)⟩

/-- C8 counterexample.  The derived child list of the fixture root is the
single record 1 ("b"), yet Readdir with offset 7 (past the end of that
one-element child list) and count 0 (no room for any entry) still
returns the full two-entry listing: the offset and count arguments are
ignored, contradicting "up to count bytes worth of entries starting at
position offset". -/
theorem cpio_readdir_ignores_offset_count :
    cpioReaddirList A5 0 = .ok [1] ∧
    cpioReaddir A5 0 7 0 =
      .ok [⟨⟨0, 0, 0⟩, 0, ".", 0⟩, ⟨⟨0, 0, 1⟩, 0, "b", 1⟩] ∧
    ([⟨⟨0, 0, 0⟩, 0, ".", 0⟩, ⟨⟨0, 0, 1⟩, 0, "b", 1⟩] : List Dirent) ≠ [] := by
  decide

/-- C8 (amended).  Readdir returns a list headed by a synthesized "."
entry for the node itself (its QID, its record index as offset),
followed by one entry per record after the node whose path made relative
to the node's path contains no separator - the derived child list - in
record order; the offset and count arguments are ignored and the entire
derived listing is returned for every offset and every count.  Shown in
general (the result is the same function of the node for all offsets and
counts) and on the fixture: node "b/c" lists ".", "b/c/d", "b/c/hi" and
the root lists ".", "b". -/
theorem cpio_readdir_full_listing :
    (∀ (a : CPIO9P) (lp o1 c1 o2 c2 : Nat),
       cpioReaddir a lp o1 c1 = cpioReaddir a lp o2 c2) ∧
    (∀ (off cnt : Nat), cpioReaddir A5 2 off cnt =
       .ok [⟨⟨0, 0, 2⟩, 0, ".", 2⟩, ⟨⟨0, 0, 3⟩, 0, "b/c/d", 3⟩,
            ⟨⟨0, 0, 4⟩, 0, "b/c/hi", 4⟩]) ∧
    (∀ (off cnt : Nat), cpioReaddir A5 0 off cnt =
       .ok [⟨⟨0, 0, 0⟩, 0, ".", 0⟩, ⟨⟨0, 0, 1⟩, 0, "b", 1⟩]) ∧
    cpioReaddirList A5 2 = .ok [3, 4] ∧
    cpioReaddirList A5 0 = .ok [1] := by
  exact ⟨fun a lp o1 c1 o2 c2 => rfl, fun off cnt => rfl,
    fun off cnt => rfl, by decide, by decide⟩

/-- C9.  Real-filesystem WriteAt semantics: writing through a file opened
in append mode hits the recognizable Go runtime rejection of positional
writes and is retried as a sequential write of the same bytes (landing
at the end of file); any other reported error is returned unchanged with
the failed attempt's byte count; and the ordinary case writes the bytes
at the explicit offset. -/
theorem cpu9p_writeat_append_retry :
    (∀ (f : GoFile) (p : List Nat) (off : Nat), f.appendMode = true →
       cpu9pWriteAt f p off =
         ({ f with contents := f.contents ++ p }, (p.length : Int), none)) ∧
    (∀ (f : GoFile) (p : List Nat) (off : Nat) (e : String),
       f.appendMode = false → f.ioErr = some e →
       strContainsSub e appendModeErrMsg = false →
       cpu9pWriteAt f p off = (f, 0, some e)) ∧
    (∀ (f : GoFile) (p : List Nat) (off : Nat),
       f.appendMode = false → f.ioErr = none →
       cpu9pWriteAt f p off =
         ({ f with contents := writeAtBytes f.contents off p },
          (p.length : Int), none)) := by
  refine ⟨?_, ?_, ?_⟩
  · intro f p off happ
    rw [cpu9pWriteAt]
    simp only [osFileWriteAt, happ, if_true]
    rw [show strContainsSub appendModeErrMsg appendModeErrMsg = true by decide]
    simp [osFileWrite, happ]
  · intro f p off e happ herr hsub
    rw [cpu9pWriteAt]
    simp only [osFileWriteAt, happ, herr, Bool.false_eq_true, if_false]
    rw [hsub]
    rfl
  · intro f p off happ herr
    rw [cpu9pWriteAt]
    simp only [osFileWriteAt, happ, herr, Bool.false_eq_true, if_false]

/-- C9 witness.  The three cases at concrete files: an append-mode file
with bytes 1,2,3 gets 7,8 appended at the end despite offset 0; a file
whose positional write reports an unrelated error returns that error
unchanged; a plain file gets 7,8 written at offset 1. -/
theorem cpu9p_writeat_append_retry_witness :
    cpu9pWriteAt ⟨[1, 2, 3], true, none⟩ [7, 8] 0 =
      (⟨[1, 2, 3, 7, 8], true, none⟩, 2, none) ∧
    cpu9pWriteAt ⟨[1, 2, 3], false, some "disk on fire"⟩ [7, 8] 1 =
      (⟨[1, 2, 3], false, some "disk on fire"⟩, 0, some "disk on fire") ∧
    cpu9pWriteAt ⟨[1, 2, 3], false, none⟩ [7, 8] 1 =
      (⟨[1, 7, 8], false, none⟩, 2, none) := by
  refine ⟨?_, ?_, ?_⟩
  · have := cpu9p_writeat_append_retry.1 ⟨[1, 2, 3], true, none⟩ [7, 8] 0 rfl
    simpa using this
  · exact cpu9p_writeat_append_retry.2.1 ⟨[1, 2, 3], false, some "disk on fire"⟩
      [7, 8] 1 "disk on fire" rfl rfl (by decide)
  · have := cpu9p_writeat_append_retry.2.2 ⟨[1, 2, 3], false, none⟩ [7, 8] 1
      rfl rfl
    simpa using this

/-- C10.  The record-lookup helper's bound check is off by one: the
source rejects only indexes STRICTLY greater than the record count with
NotExist and then evaluates recs[path], so the boundary index equal to
the record count slips past the guard and the access is out of range - a
run-time panic, not a NotExist failure.  Shown for every archive at the
boundary, and on the fixture (5 records): index 5 panics while index 6
returns NotExist; indexes below the record count always succeed. -/
theorem cpio_rec_bounds :
    (∀ a : CPIO9P, cpioRec a a.recs.length = .panic) ∧
    cpioRec A5 5 = .panic ∧
    cpioRec A5 6 = .err .notExist ∧
    (∀ (a : CPIO9P) (lp : Nat), lp < a.recs.length →
       ∃ r, cpioRec a lp = .ok r) := by
  refine ⟨?_, by decide, by decide, ?_⟩
  · intro a
    unfold cpioRec
    rw [if_neg (by omega), List.get?_eq_none.mpr (le_refl _)]
  · intro a lp h
    exact ⟨a.recs.get ⟨lp, h⟩, cpioRec_ok_of_lt a lp h⟩

/-- C10 witness.  An in-range index of the fixture archive resolves to a
record. -/
theorem cpio_rec_bounds_witness : ∃ r, cpioRec A5 0 = .ok r :=
  cpio_rec_bounds.2.2.2 A5 0 (by decide)
